import Mathlib

/-!
Verification of `src/modjo/modjo-transcripts-to-dust.ts`, a pipeline that
extracts call transcripts from the Modjo API page by page, renders each
record as a flat text document, and upserts it to a Dust datasource.
-/

namespace Modjo

/-- Decimal digit character for `n < 10` (JS number-to-string rendering). -/
def digitChar (n : Nat) : Char := Char.ofNat (48 + n)

/-- Fuel-driven accumulator producing the decimal digits of `n`,
most significant first, prepended to `acc`. -/
def toDecimalAux : Nat → Nat → List Char → List Char
  | 0, _, acc => acc
  | fuel + 1, n, acc =>
    let d := digitChar (n % 10)
    if n / 10 = 0 then d :: acc
    else toDecimalAux fuel (n / 10) (d :: acc)

/-- Decimal rendering of a natural number, as JS `Number.prototype.toString`
produces for non-negative integers. -/
def natToString (n : Nat) : String := String.mk (toDecimalAux (n + 1) n [])

/-- JS `String.prototype.padStart(2, "0")`: left-pad with `'0'` up to
length 2; strings already of length ≥ 2 are returned unchanged. -/
def padStart2 (s : String) : String :=
  if s.length < 2 then String.mk (List.replicate (2 - s.length) '0') ++ s else s

/-- `formatTime` from the source: minutes by integer division, seconds by
remainder, each rendered and padded to at least two digits. -/
def formatTime (seconds : Nat) : String :=
  let minutes := seconds / 60
  let remainingSeconds := seconds % 60
  padStart2 (natToString minutes) ++ ":" ++ padStart2 (natToString remainingSeconds)

/-- Spec-side zero padding: a number below 10 gets one leading zero,
larger numbers are printed as-is (padding is a floor, not a cap). -/
def specPad2 (n : Nat) : String :=
  if n < 10 then "0" ++ natToString n else natToString n

/-- Spec-side description of the time format: `floor(s/60)` zero-padded to
at least two digits, a colon, then `floor(s mod 60)` zero-padded likewise. -/
def formatTimeSpec (s : Nat) : String :=
  specPad2 (s / 60) ++ ":" ++ specPad2 (s % 60)

/-! ## Data model (`ModjoCallExport` and its relations) -/

/-- The `recording` relation: holds a playback URL. -/
structure Recording where
  url : String
deriving DecidableEq

/-- One speaker of a call. Optional string fields (`email`, `phoneNumber`)
model JS `string | null | undefined`; `contactId`/`userId` are optional. -/
structure Speaker where
  contactId : Option Nat
  userId : Option Nat
  email : Option String
  name : String
  phoneNumber : Option String
  speakerId : Nat
  type : String
deriving DecidableEq

/-- One topic attached to a transcript entry. -/
structure TranscriptTopic where
  topicId : Nat
  name : String
deriving DecidableEq

/-- One transcript entry: time offsets in seconds, a speaker-id reference,
free text and a list of topics. -/
structure TranscriptEntry where
  startTime : Nat
  endTime : Nat
  speakerId : Nat
  content : String
  topics : List TranscriptTopic
deriving DecidableEq

/-- The `relations` object of a call export. `recording` and `aiSummary`
are optional at runtime (the code guards both with a truthiness test). -/
structure Relations where
  recording : Option Recording
  aiSummary : Option String
  speakers : List Speaker
  transcript : List TranscriptEntry
deriving DecidableEq

/-- One call transcript export (`ModjoCallExport`). -/
structure ModjoCallExport where
  callId : Nat
  title : String
  startDate : String
  duration : Nat
  provider : String
  language : String
  callCrmId : Option String
  relations : Relations
deriving DecidableEq

/-- JS truthiness of a `string | null | undefined` value: `null`,
`undefined` and the empty string are falsy. -/
def optStrTruthy : Option String → Bool
  | none => false
  | some s => !s.isEmpty

/-! ## Document renderer (`upsertToDustDatasource`, content construction) -/

/-- Destination document identifier: `modjo-transcript-<callId>`. -/
def documentId (t : ModjoCallExport) : String :=
  "modjo-transcript-" ++ natToString t.callId

/-- Header block of the rendered document: six unconditional lines followed
by the conditional CRM-id, recording-URL and AI-summary lines, each guarded
exactly as the source guards them (JS truthiness). -/
def headerContent (t : ModjoCallExport) : String :=
  "Call ID: " ++ natToString t.callId ++ "\n"
  ++ "Title: " ++ t.title ++ "\n"
  ++ "Date: " ++ t.startDate ++ "\n"
  ++ "Duration: " ++ natToString t.duration ++ " seconds\n"
  ++ "Provider: " ++ t.provider ++ "\n"
  ++ "Language: " ++ t.language ++ "\n"
  ++ (match t.callCrmId with
      | some s => if s.isEmpty then "" else "CRM ID: " ++ s ++ "\n"
      | none => "")
  ++ (match t.relations.recording with
      | some r => "Recording URL: " ++ r.url ++ "\n"
      | none => "")
  ++ (match t.relations.aiSummary with
      | some s => if s.isEmpty then "" else "AI Summary: " ++ s ++ "\n"
      | none => "")

/-- One speaker line: `<speakerId>: <name> (<type>)` with the email and
phone fragments appended only when truthy. -/
def speakerLine (s : Speaker) : String :=
  natToString s.speakerId ++ ": " ++ s.name ++ " (" ++ s.type ++ ")"
  ++ (match s.email with
      | some e => if e.isEmpty then "" else " - Email: " ++ e
      | none => "")
  ++ (match s.phoneNumber with
      | some p => if p.isEmpty then "" else " - Phone: " ++ p
      | none => "")
  ++ "\n"

/-- Speaker-name resolution for a transcript entry: linear search of the
speakers list by id, falling back to the `Speaker <id>` placeholder. -/
def resolveSpeakerName (speakers : List Speaker) (sid : Nat) : String :=
  match speakers.find? (fun s => s.speakerId == sid) with
  | some s => s.name
  | none => "Speaker " ++ natToString sid

/-- One transcript-entry block: the timed line, an optional topics line
(only when the entry has at least one topic), and a blank separator line. -/
def entryContent (speakers : List Speaker) (e : TranscriptEntry) : String :=
  "[" ++ formatTime e.startTime ++ " - " ++ formatTime e.endTime ++ "] "
  ++ resolveSpeakerName speakers e.speakerId ++ ": " ++ e.content ++ "\n"
  ++ (if e.topics.length > 0 then
        "Topics: " ++ String.intercalate ", " (e.topics.map (fun t => t.name)) ++ "\n"
      else "")
  ++ "\n"

/-- The full document text built by `upsertToDustDatasource`: header, then
`forEach`-accumulated speaker lines, then `forEach`-accumulated transcript
blocks, with the final string trimmed before posting. -/
def renderContent (t : ModjoCallExport) : String :=
  let afterHeader := headerContent t ++ "\nSpeakers:\n"
  let afterSpeakers :=
    t.relations.speakers.foldl (fun acc s => acc ++ speakerLine s) afterHeader
  let afterTitle := afterSpeakers ++ "\nTranscript:\n"
  let afterEntries :=
    t.relations.transcript.foldl
      (fun acc e => acc ++ entryContent t.relations.speakers e) afterTitle
  afterEntries.trim

/-! ## Upsert and run orchestration -/

/-- Observable outcome of one upsert: the success log line, or the error
log line carrying the record's call id. The `catch` in the source turns a
failed request into a log entry and a normal return. -/
inductive UpsertLog where
  | success (callId : Nat)
  | errorLogged (callId : Nat) (err : String)
deriving DecidableEq

/-- `upsertToDustDatasource`: renders the record, posts `renderContent t`
to the document path derived from `documentId t` (modelled by the `api`
function), and catches any failure, returning normally either way. -/
def upsertToDustDatasource (api : String → String → Except String Unit)
    (t : ModjoCallExport) : UpsertLog :=
  match api (documentId t) (renderContent t) with
  | .ok _ => .success t.callId
  | .error e => .errorLogged t.callId e

/-- The `main` loop over the extracted transcripts: every record is
awaited and upserted in order; a failed upsert never stops the loop. -/
def mainRun (api : String → String → Except String Unit)
    (ts : List ModjoCallExport) : List UpsertLog :=
  ts.map (upsertToDustDatasource api)

/-! ## Paginated extractor (`getModjoTranscripts`) -/

/-- Result of one page request against `/v1/calls/exports`: a successful
response reporting `lastPage` and the page's record slice, or a failure. -/
inductive FetchResult where
  | ok (lastPage : Nat) (values : List ModjoCallExport)
  | err (msg : String)

/-- The `do { ... } while (true)` extraction loop, fuel-driven. Returns the
accumulated records and the number of page requests issued. On a failed
request the loop breaks, keeping the accumulator; on success the slice is
appended and the loop stops when `page ≥ lastPage`, else `page` increments. -/
def getTranscriptsLoop (src : Nat → FetchResult) :
    Nat → Nat → List ModjoCallExport → List ModjoCallExport × Nat
  | 0, _, acc => (acc, 0)
  | fuel + 1, page, acc =>
    match src page with
    | .err _ => (acc, 1)
    | .ok lastPage values =>
      let acc2 := acc ++ values
      if page ≥ lastPage then (acc2, 1)
      else
        let r := getTranscriptsLoop src fuel (page + 1) acc2
        (r.1, r.2 + 1)

/-- `getModjoTranscripts`: run the loop from page 1 with an empty
accumulator and return the accumulated records. -/
def getModjoTranscripts (src : Nat → FetchResult) (fuel : Nat) :
    List ModjoCallExport :=
  (getTranscriptsLoop src fuel 1 []).1

/-- Number of page requests the extraction loop issues. -/
def getModjoTranscriptsRequests (src : Nat → FetchResult) (fuel : Nat) : Nat :=
  (getTranscriptsLoop src fuel 1 []).2

/-! ## Specification-side renderer (for the refinement claim) -/

/-- Spec-side header: the six unconditional lines then the three optional
lines, each present only when its field is (truthily) present. -/
def specHeaderLines (t : ModjoCallExport) : List String :=
  ["Call ID: " ++ natToString t.callId,
   "Title: " ++ t.title,
   "Date: " ++ t.startDate,
   "Duration: " ++ natToString t.duration ++ " seconds",
   "Provider: " ++ t.provider,
   "Language: " ++ t.language]
  ++ (if optStrTruthy t.callCrmId then ["CRM ID: " ++ t.callCrmId.getD ""] else [])
  ++ (match t.relations.recording with
      | some r => ["Recording URL: " ++ r.url]
      | none => [])
  ++ (if optStrTruthy t.relations.aiSummary then
        ["AI Summary: " ++ t.relations.aiSummary.getD ""]
      else [])

/-- Join a list of lines, terminating each with a newline. -/
def joinLines (ls : List String) : String :=
  String.join (ls.map (fun l => l ++ "\n"))

/-- Spec-side renderer: header lines, then the speakers block with one
line per speaker in original order, then the transcript block with one
entry block per transcript entry in original order, all trimmed. -/
def renderContentSpec (t : ModjoCallExport) : String :=
  (joinLines (specHeaderLines t)
   ++ "\nSpeakers:\n"
   ++ String.join (t.relations.speakers.map speakerLine)
   ++ "\nTranscript:\n"
   ++ String.join (t.relations.transcript.map (entryContent t.relations.speakers))).trim

/-! ## Concrete fixtures used by witnesses -/

/-- A minimal concrete record with a given call id. -/
def sampleRecord (id : Nat) : ModjoCallExport :=
  { callId := id
    title := "Weekly sync"
    startDate := "2024-03-01T10:00:00Z"
    duration := 125
    provider := "zoom"
    language := "en"
    callCrmId := none
    relations :=
      { recording := none
        aiSummary := none
        speakers := []
        transcript := [] } }

/-- A source whose every page succeeds, reports `lastPage = 3` and returns
the one-record batch `[sampleRecord p]` on page `p`. -/
def srcThreePages : Nat → FetchResult :=
  fun p => FetchResult.ok 3 [sampleRecord p]

/-- A source whose page-2 request fails and whose other pages succeed
reporting `lastPage = 3`. -/
def srcPageTwoFails : Nat → FetchResult :=
  fun p => if p = 2 then FetchResult.err "boom" else FetchResult.ok 3 [sampleRecord p]

/-- An upsert API that rejects exactly the document `modjo-transcript-7`. -/
def apiRejectSeven : String → String → Except String Unit :=
  fun d _ => if d = "modjo-transcript-7" then Except.error "boom" else Except.ok ()

/-- A transcript entry referencing speaker id 5. -/
def entryFive : TranscriptEntry :=
  { startTime := 0, endTime := 5, speakerId := 5, content := "hello", topics := [] }

/-! ## Helper lemmas -/

theorem join_cons (s : String) (l : List String) :
    String.join (s :: l) = s ++ String.join l := by
  apply String.ext
  simp [String.join_eq]

theorem join_nil : String.join ([] : List String) = "" := by
  apply String.ext
  simp [String.join_eq]

theorem foldl_append_join {α : Type} (f : α → String) :
    ∀ (l : List α) (acc : String),
      l.foldl (fun a x => a ++ f x) acc = acc ++ String.join (l.map f)
  | [], acc => by simp [join_nil]
  | x :: l, acc => by
    simp only [List.foldl_cons, List.map_cons, join_cons]
    rw [foldl_append_join f l (acc ++ f x), String.append_assoc]

theorem toDecimalAux_length_mono :
    ∀ (fuel n : Nat) (acc : List Char),
      acc.length ≤ (toDecimalAux fuel n acc).length
  | 0, _, _ => Nat.le_refl _
  | fuel + 1, n, acc => by
    simp only [toDecimalAux]
    by_cases h : n / 10 = 0
    · simp [h]
    · simp only [h, if_neg h]
      calc acc.length ≤ (digitChar (n % 10) :: acc).length := by simp
        _ ≤ _ := toDecimalAux_length_mono fuel (n / 10) _

theorem toDecimalAux_length_succ (fuel n : Nat) (acc : List Char)
    (h : 0 < fuel) : acc.length + 1 ≤ (toDecimalAux fuel n acc).length := by
  obtain ⟨f, rfl⟩ : ∃ f, fuel = f + 1 := ⟨fuel - 1, by omega⟩
  simp only [toDecimalAux]
  by_cases h10 : n / 10 = 0
  · simp [h10]
  · simp only [h10, if_neg h10]
    calc acc.length + 1 = (digitChar (n % 10) :: acc).length := by simp
      _ ≤ _ := toDecimalAux_length_mono f (n / 10) _

theorem natToString_length_lt_ten (n : Nat) (h : n < 10) :
    (natToString n).length = 1 := by
  interval_cases n <;> decide

theorem natToString_length_ge_ten (n : Nat) (h : 10 ≤ n) :
    2 ≤ (natToString n).length := by
  have h10 : n / 10 ≠ 0 := by omega
  have hfe : natToString n = String.mk (toDecimalAux (n + 1) n []) := rfl
  obtain ⟨f, hf⟩ : ∃ f, n + 1 = f + 1 := ⟨n, rfl⟩
  have hstep :
      toDecimalAux (n + 1) n []
        = toDecimalAux f (n / 10) [digitChar (n % 10)] := by
    rw [hf]
    simp [toDecimalAux, h10]
  have hlen := toDecimalAux_length_succ f (n / 10) [digitChar (n % 10)] (by omega)
  simp only [List.length_cons, List.length_nil] at hlen
  rw [hfe, hstep]
  simpa using hlen

theorem headerContent_eq_spec (t : ModjoCallExport) :
    headerContent t = joinLines (specHeaderLines t) := by
  unfold headerContent joinLines specHeaderLines
  cases hc : t.callCrmId <;> cases hr : t.relations.recording <;>
    cases ha : t.relations.aiSummary <;>
    simp only [optStrTruthy, join_cons, join_nil, List.map_append, List.map_cons,
      List.map_nil, List.append_assoc, List.cons_append, List.nil_append] <;>
    split_ifs <;>
    (apply String.ext; simp_all [join_cons, join_nil])

theorem padStart2_natToString (n : Nat) :
    padStart2 (natToString n) = specPad2 n := by
  by_cases h : n < 10
  · have hlen := natToString_length_lt_ten n h
    rw [padStart2, specPad2, if_pos (by omega), if_pos h, hlen]
    rfl
  · have hlen := natToString_length_ge_ten n (by omega)
    rw [padStart2, specPad2, if_neg (by omega), if_neg h]

theorem loop_ok_run (src : Nat → FetchResult) (lp : Nat → Nat)
    (vals : Nat → List ModjoCallExport) (P : Nat)
    (hsrc : ∀ p, src p = FetchResult.ok (lp p) (vals p))
    (hstop : lp P ≤ P) :
    ∀ (fuel start : Nat) (acc : List ModjoCallExport), start ≤ P →
      (∀ p, start ≤ p → p < P → p < lp p) →
      P + 1 - start ≤ fuel →
      getTranscriptsLoop src fuel start acc
        = (acc ++ ((List.range' start (P + 1 - start)).map vals).flatten,
           P + 1 - start) := by
  intro fuel
  induction fuel with
  | zero => intro start acc h1 _ h3; omega
  | succ fuel ih =>
    intro start acc hsP hbef hfuel
    simp only [getTranscriptsLoop, hsrc start]
    by_cases hstart : start = P
    · have hps : lp start ≤ start := by rw [hstart]; exact hstop
      rw [if_pos hps]
      have h1 : P + 1 - start = 1 := by omega
      rw [h1, List.range'_succ]
      simp
    · have hlt : start < P := Nat.lt_of_le_of_ne hsP hstart
      have hlp : start < lp start := hbef start (Nat.le_refl _) hlt
      rw [if_neg (by omega)]
      rw [ih (start + 1) (acc ++ vals start) (by omega)
        (fun p h1 h2 => hbef p (by omega) h2) (by omega)]
      have h1 : P + 1 - start = (P - start) + 1 := by omega
      have h2 : P + 1 - (start + 1) = P - start := by omega
      rw [h2, h1, List.range'_succ]
      simp [List.append_assoc]

theorem loop_fail_run (src : Nat → FetchResult) (lp : Nat → Nat)
    (vals : Nat → List ModjoCallExport) (k : Nat) (msg : String)
    (hsrc : ∀ p, p < k → src p = FetchResult.ok (lp p) (vals p))
    (hk : src k = FetchResult.err msg) :
    ∀ (fuel start : Nat) (acc : List ModjoCallExport), start ≤ k →
      (∀ p, start ≤ p → p < k → p < lp p) →
      k + 1 - start ≤ fuel →
      getTranscriptsLoop src fuel start acc
        = (acc ++ ((List.range' start (k - start)).map vals).flatten,
           k + 1 - start) := by
  intro fuel
  induction fuel with
  | zero => intro start acc h1 _ h3; omega
  | succ fuel ih =>
    intro start acc hsk hbef hfuel
    by_cases hstart : start = k
    · rw [hstart]
      simp only [getTranscriptsLoop, hk]
      have h1 : k + 1 - k = 1 := by omega
      have h2 : k - k = 0 := by omega
      simp [h1, h2]
    · have hlt : start < k := Nat.lt_of_le_of_ne hsk hstart
      have hlp : start < lp start := hbef start (Nat.le_refl _) hlt
      simp only [getTranscriptsLoop, hsrc start hlt]
      rw [if_neg (by omega)]
      rw [ih (start + 1) (acc ++ vals start) (by omega)
        (fun p h1 h2 => hbef p (by omega) h2) (by omega)]
      have h1 : k - start = (k - (start + 1)) + 1 := by omega
      have h2 : k + 1 - start = (k + 1 - (start + 1)) + 1 := by omega
      rw [h2, h1, List.range'_succ]
      simp [List.append_assoc]

theorem loop_count_pos (src : Nat → FetchResult) (fuel page : Nat)
    (acc : List ModjoCallExport) (h : 1 ≤ fuel) :
    1 ≤ (getTranscriptsLoop src fuel page acc).2 := by
  obtain ⟨f, rfl⟩ : ∃ f, fuel = f + 1 := ⟨fuel - 1, by omega⟩
  simp only [getTranscriptsLoop]
  cases hsp : src page with
  | err m => simp
  | ok lastPage values =>
    dsimp only
    split_ifs <;> simp

theorem loop_count_le (src : Nat → FetchResult) (L : Nat)
    (hb : ∀ p lastPage values,
      src p = FetchResult.ok lastPage values → lastPage ≤ L) :
    ∀ (fuel p : Nat) (acc : List ModjoCallExport), p ≤ L → L + 1 - p ≤ fuel →
      (getTranscriptsLoop src fuel p acc).2 ≤ L + 1 - p := by
  intro fuel
  induction fuel with
  | zero => intro p acc h1 h2; omega
  | succ fuel ih =>
    intro p acc hpL hfuel
    simp only [getTranscriptsLoop]
    cases hsp : src p with
    | err m => simp; omega
    | ok lastPage values =>
      have hle := hb p lastPage values hsp
      dsimp only
      split_ifs with hstop
      · simp; omega
      · have := ih (p + 1) (acc ++ values) (by omega) (by omega)
        simp only []
        omega

/-! ## Claims -/

/-- C1: for every sequence of successful page responses, `getModjoTranscripts`
returns the concatenation, in page order then in-page order, of each
response's record slice, requesting pages 1, 2, … and stopping at the first
page `P` whose index is at least the `lastPage` reported by that page's
response (pages before `P` report a strictly larger `lastPage`). -/
theorem c1_extractor_concatenates_pages
    (src : Nat → FetchResult) (lp : Nat → Nat)
    (vals : Nat → List ModjoCallExport) (P fuel : Nat)
    (hsrc : ∀ p, src p = FetchResult.ok (lp p) (vals p))
    (hP : 1 ≤ P) (hstop : lp P ≤ P)
    (hbefore : ∀ p, 1 ≤ p → p < P → p < lp p)
    (hfuel : P ≤ fuel) :
    getModjoTranscripts src fuel = ((List.range' 1 P).map vals).flatten := by
  unfold getModjoTranscripts
  rw [loop_ok_run src lp vals P hsrc hstop fuel 1 [] hP hbefore (by omega)]
  have h1 : P + 1 - 1 = P := by omega
  rw [h1]
  simp

/-- Witness for C1: a source reporting `lastPage = 3` with the distinct
batch `[sampleRecord p]` on page `p` yields the three batches concatenated
in page order. -/
theorem c1_extractor_concatenates_pages_witness :
    getModjoTranscripts srcThreePages 3
      = [sampleRecord 1, sampleRecord 2, sampleRecord 3] := by
  have h := c1_extractor_concatenates_pages srcThreePages (fun _ => 3)
    (fun p => [sampleRecord p]) 3 3 (fun _ => rfl) (by omega) (Nat.le_refl 3)
    (fun _ _ h2 => h2) (Nat.le_refl 3)
  exact h.trans (by rfl)

/-- C2: `formatTime` renders `floor(s/60)`, zero-padded to at least two
digits, then `:`, then `floor(s mod 60)` zero-padded to two digits; minute
counts of three or more digits are printed as-is. -/
theorem c2_formatTime_matches_spec :
    (∀ s : Nat, formatTime s = formatTimeSpec s)
      ∧ formatTime 125 = "02:05" ∧ formatTime 59 = "00:59"
      ∧ formatTime 3661 = "61:01" ∧ formatTime 6065 = "101:05" := by
  refine ⟨fun s => ?_, by decide, by decide, by decide, by decide⟩
  simp only [formatTime, formatTimeSpec, padStart2_natToString]

/-- C3: when the request for page `k` fails and every earlier page
succeeded (reporting a `lastPage` beyond it), the extractor stops at page
`k`, returns normally, and yields exactly the records accumulated from
pages `1 … k-1`. -/
theorem c3_extractor_partial_on_failure
    (src : Nat → FetchResult) (lp : Nat → Nat)
    (vals : Nat → List ModjoCallExport) (k fuel : Nat) (msg : String)
    (hsrc : ∀ p, p < k → src p = FetchResult.ok (lp p) (vals p))
    (hk : src k = FetchResult.err msg) (hk1 : 1 ≤ k)
    (hbefore : ∀ p, 1 ≤ p → p < k → p < lp p)
    (hfuel : k ≤ fuel) :
    getModjoTranscripts src fuel = ((List.range' 1 (k - 1)).map vals).flatten
      ∧ getModjoTranscriptsRequests src fuel = k := by
  unfold getModjoTranscripts getModjoTranscriptsRequests
  rw [loop_fail_run src lp vals k msg hsrc hk fuel 1 [] hk1 hbefore (by omega)]
  have h1 : k + 1 - 1 = k := by omega
  rw [h1]
  simp

/-- Witness for C3: with page 2 failing and page 1 reporting
`lastPage = 3`, the result is page 1's batch alone and exactly two page
requests are issued. -/
theorem c3_extractor_partial_on_failure_witness :
    getModjoTranscripts srcPageTwoFails 2 = [sampleRecord 1]
      ∧ getModjoTranscriptsRequests srcPageTwoFails 2 = 2 := by
  have h := c3_extractor_partial_on_failure srcPageTwoFails (fun _ => 3)
    (fun p => [sampleRecord p]) 2 2 "boom"
    (fun p hp => by unfold srcPageTwoFails; rw [if_neg (by omega)]) rfl
    (by omega) (fun p h1 h2 => show p < 3 by omega) (Nat.le_refl 2)
  exact ⟨h.1.trans (by rfl), h.2⟩

/-- C4: the destination document identifier is exactly
`modjo-transcript-<callId>`, a pure function of the call id alone, so two
records with the same call id address the same logical document. -/
theorem c4_documentId_pure_of_callId (t : ModjoCallExport) :
    documentId t = "modjo-transcript-" ++ natToString t.callId
      ∧ ∀ t2 : ModjoCallExport, t2.callId = t.callId → documentId t2 = documentId t := by
  refine ⟨rfl, fun t2 h => ?_⟩
  unfold documentId
  rw [h]

/-- Witness for C4: two records sharing call id 5 but differing elsewhere
map to the same document identifier. -/
theorem c4_documentId_pure_of_callId_witness :
    documentId { sampleRecord 5 with title := "Another title" }
      = documentId (sampleRecord 5) :=
  (c4_documentId_pure_of_callId (sampleRecord 5)).2
    { sampleRecord 5 with title := "Another title" } rfl

/-- C5: the main loop attempts one upsert per record in submission order;
a record whose request fails produces an error log carrying its call id,
and never prevents the attempts for the remaining records. -/
theorem c5_main_attempts_every_record
    (api : String → String → Except String Unit) (ts : List ModjoCallExport) :
    (mainRun api ts).length = ts.length
      ∧ ∀ (i : Nat) (h : i < ts.length),
          (mainRun api ts)[i]? = some (upsertToDustDatasource api ts[i])
          ∧ ∀ e, api (documentId ts[i]) (renderContent ts[i]) = Except.error e →
              (mainRun api ts)[i]? = some (UpsertLog.errorLogged ts[i].callId e) := by
  refine ⟨by simp [mainRun], fun i h => ⟨?_, fun e he => ?_⟩⟩
  · simp [mainRun, List.getElem?_eq_getElem h]
  · simp [mainRun, List.getElem?_eq_getElem h, upsertToDustDatasource, he]

/-- Witness for C5: with an API rejecting `modjo-transcript-7`, both
records are attempted and the second is logged as failed with call id 7. -/
theorem c5_main_attempts_every_record_witness :
    (mainRun apiRejectSeven [sampleRecord 3, sampleRecord 7]).length = 2
      ∧ (mainRun apiRejectSeven [sampleRecord 3, sampleRecord 7])[1]?
          = some (UpsertLog.errorLogged 7 "boom") := by
  have h := c5_main_attempts_every_record apiRejectSeven
    [sampleRecord 3, sampleRecord 7]
  have he : apiRejectSeven (documentId (sampleRecord 7))
      (renderContent (sampleRecord 7)) = Except.error "boom" := by
    unfold apiRejectSeven
    rw [if_pos (by decide)]
  exact ⟨h.1, (h.2 1 (by decide)).2 "boom" he⟩

/-- C6: the rendered document consists, in order, of the header block
(with each optional line present exactly when its field is), the speakers
block with one line per speaker in original order, and the transcript
block with one entry block per entry in original order, the whole string
trimmed of leading and trailing whitespace. -/
theorem c6_renderContent_section_order (t : ModjoCallExport) :
    renderContent t = renderContentSpec t := by
  simp only [renderContent, renderContentSpec, foldl_append_join,
    headerContent_eq_spec]

/-- C7: a transcript entry whose speaker id does not resolve against the
speakers list renders as the placeholder `Speaker <id>`; a resolving id
renders the matched speaker's name; `entryContent` uses this resolution. -/
theorem c7_unresolved_speaker_placeholder
    (speakers : List Speaker) (e : TranscriptEntry) :
    (speakers.find? (fun s => s.speakerId == e.speakerId) = none →
        resolveSpeakerName speakers e.speakerId
          = "Speaker " ++ natToString e.speakerId)
      ∧ (∀ s, speakers.find? (fun s => s.speakerId == e.speakerId) = some s →
          resolveSpeakerName speakers e.speakerId = s.name)
      ∧ entryContent speakers e
          = "[" ++ formatTime e.startTime ++ " - " ++ formatTime e.endTime ++ "] "
            ++ resolveSpeakerName speakers e.speakerId ++ ": " ++ e.content ++ "\n"
            ++ (if e.topics.length > 0 then
                  "Topics: "
                    ++ String.intercalate ", " (e.topics.map (fun tp => tp.name))
                    ++ "\n"
                else "")
            ++ "\n" := by
  refine ⟨fun h => ?_, fun s h => ?_, rfl⟩
  · unfold resolveSpeakerName
    rw [h]
  · unfold resolveSpeakerName
    rw [h]

/-- Witness for C7: an entry referencing speaker 5 against an empty
speakers list renders the `Speaker 5` placeholder. -/
theorem c7_unresolved_speaker_placeholder_witness :
    resolveSpeakerName [] entryFive.speakerId = "Speaker 5" := by
  have h := (c7_unresolved_speaker_placeholder [] entryFive).1 rfl
  exact h.trans (by decide)

/-- C9: conditional lines are gated by JS truthiness, not mere presence: a
present-but-empty `callCrmId`, speaker `email` or speaker `phoneNumber` is
omitted exactly as if the field were null or absent. -/
theorem c9_truthiness_gates_optional_fields (t : ModjoCallExport) (s : Speaker) :
    renderContent { t with callCrmId := some "" }
        = renderContent { t with callCrmId := none }
      ∧ speakerLine { s with email := some "" } = speakerLine { s with email := none }
      ∧ speakerLine { s with phoneNumber := some "" }
          = speakerLine { s with phoneNumber := none } := by
  have hempty : ("" : String).isEmpty = true := by decide
  refine ⟨?_, ?_, ?_⟩
  · simp [renderContent, headerContent, hempty]
  · simp [speakerLine, hempty]
  · simp [speakerLine, hempty]

/-- C10: if every successful page response reports `lastPage ≤ L`, the
extraction loop terminates after at most `max 1 L` page requests, and it
always issues at least one request. -/
theorem c10_extractor_terminates_bounded
    (src : Nat → FetchResult) (L fuel : Nat)
    (hb : ∀ p lastPage values,
      src p = FetchResult.ok lastPage values → lastPage ≤ L)
    (hfuel : max 1 L ≤ fuel) :
    1 ≤ getModjoTranscriptsRequests src fuel
      ∧ getModjoTranscriptsRequests src fuel ≤ max 1 L := by
  constructor
  · exact loop_count_pos src fuel 1 [] (by omega)
  · unfold getModjoTranscriptsRequests
    by_cases hL : 1 ≤ L
    · have h := loop_count_le src L hb fuel 1 [] hL (by omega)
      omega
    · obtain ⟨f, rfl⟩ : ∃ f, fuel = f + 1 := ⟨fuel - 1, by omega⟩
      simp only [getTranscriptsLoop]
      cases hsp : src 1 with
      | err m => simp
      | ok lastPage values =>
        have hle := hb 1 lastPage values hsp
        dsimp only
        rw [if_pos (by omega)]
        simp

/-- Witness for C10: the three-page source with bound `L = 3` and fuel 3
issues between 1 and `max 1 3` page requests. -/
theorem c10_extractor_terminates_bounded_witness :
    1 ≤ getModjoTranscriptsRequests srcThreePages 3
      ∧ getModjoTranscriptsRequests srcThreePages 3 ≤ max 1 3 :=
  c10_extractor_terminates_bounded srcThreePages 3 3
    (fun p lastPage values h => by
      simp [srcThreePages, FetchResult.ok.injEq] at h
      omega)
    (by omega)

end Modjo
